import Mathlib

/-!
Verification development for the super-shopper price-comparison engine.

The JavaScript source (comparison_modal.js and price_utils.js) is embedded
shallowly: strings are `String`/`List Char`, JS numbers are `ℚ`, nullable
values are `Option`, and JS `Set`s are `Finset`/first-seen dedup lists.
Regular-expression tests used by the source are translated pattern by
pattern into deterministic run-length matchers; where a pattern's greedy
backtracking can matter the accompanying comment argues the translation
implements exactly the JS leftmost-greedy semantics for that pattern.
-/

namespace SuperShopper

/-! ### Character helpers (ASCII, as exercised by the source's inputs) -/

/-- Uppercase ASCII letter test, the regex class [A-Z]. -/
def isUpperC (c : Char) : Bool := 'A' ≤ c && c ≤ 'Z'

/-- Lowercase ASCII letter test, the regex class [a-z]. -/
def isLowerC (c : Char) : Bool := 'a' ≤ c && c ≤ 'z'

/-- ASCII digit test, the regex class [0-9]. -/
def isDigitC (c : Char) : Bool := '0' ≤ c && c ≤ '9'

/-- JS regex word character \w, i.e. [A-Za-z0-9_]. -/
def isWordC (c : Char) : Bool := isUpperC c || isLowerC c || isDigitC c || c = '_'

/-- JS whitespace \s restricted to the characters that can occur in the
source's inputs: space, tab, LF, VT, FF, CR and NBSP. -/
def isSpaceC (c : Char) : Bool :=
  c = ' ' || c = '\t' || c = '\n' || c = '\x0b' || c = '\x0c' || c = '\r' ||
    c = Char.ofNat 160

/-- ASCII lowercasing, as String.prototype.toLowerCase on ASCII input. -/
def toLowerC (c : Char) : Char :=
  if isUpperC c then Char.ofNat (c.toNat + 32) else c

/-- ASCII uppercasing, as String.prototype.toUpperCase on ASCII input. -/
def toUpperC (c : Char) : Char :=
  if isLowerC c then Char.ofNat (c.toNat - 32) else c

/-- Lowercase every character of a string (JS url.toLowerCase()). -/
def toLowerL (l : List Char) : List Char := l.map toLowerC

/-- Lowercase a Lean String, used for retailer keys. -/
def toLowerStr (s : String) : String := String.mk (toLowerL s.data)

/-- Substring containment: JS String.prototype.includes(needle). -/
def containsSub (hay needle : List Char) : Bool :=
  hay.tails.any (fun t => needle.isPrefixOf t)

/-- JS String.prototype.startsWith. -/
def startsWithL (hay pre : List Char) : Bool := pre.isPrefixOf hay

/-- JS String.prototype.endsWith. -/
def endsWithL (hay post : List Char) : Bool :=
  post.reverse.isPrefixOf hay.reverse

/-- Length of the maximal run of characters satisfying p at the front. -/
def countRun (p : Char → Bool) : List Char → Nat
  | [] => 0
  | c :: cs => if p c then countRun p cs + 1 else 0

/-- JS String.prototype.trim (drop leading and trailing whitespace). -/
def trimL (l : List Char) : List Char :=
  ((l.dropWhile isSpaceC).reverse.dropWhile isSpaceC).reverse

/-- Collapse whitespace runs to single spaces, tracking whether the previous
character was whitespace; embeds replace(/\s+/g, ' '). -/
def collapseWSAux : Bool → List Char → List Char
  | _, [] => []
  | prevSpace, c :: cs =>
    if isSpaceC c then
      if prevSpace then collapseWSAux true cs
      else ' ' :: collapseWSAux true cs
    else c :: collapseWSAux false cs

/-- Embeds replace(/\s+/g, ' ') on a whole string. -/
def collapseWS (l : List Char) : List Char := collapseWSAux false l

/-! ### Title normalisation (the normalize closure in calculateTitleSimilarity):
lowercase, replace [^\w\s] by spaces, collapse whitespace, trim. -/

/-- One character of the normalize pipeline: lowercase, then map any
character that is neither \w nor \s to a space. -/
def normMapChar (c : Char) : Char :=
  let lc := toLowerC c
  if isWordC lc || isSpaceC lc then lc else ' '

/-- The source's normalize: str.toLowerCase().replace(/[^\w\s]/g, ' ')
.replace(/\s+/g, ' ').trim(). -/
def normalizeL (l : List Char) : List Char :=
  trimL (collapseWS (l.map normMapChar))

/-- Split on whitespace runs, dropping empty fragments; agrees with JS
split(/\s+/) on trimmed strings, which is how the source uses it. -/
def wordsOf (l : List Char) : List (List Char) :=
  (l.splitOnP (fun c => isSpaceC c)).filter (fun w => !w.isEmpty)

/-- The heuristic brand of the source: normalized1.split(/\s+/).slice(0, 2)
.join(' '). -/
def firstTwoWords (n : List Char) : List Char :=
  List.intercalate [' '] ((wordsOf n).take 2)

/-- The stop-word list commonWords used by extractTokens. -/
def commonWordsL : List (List Char) :=
  ["the", "and", "or", "for", "with", "pack", "pairs", "pair", "set",
   "bundle", "of", "a", "an", "in", "on", "at"].map String.data

/-- extractTokens from the source: split on whitespace, keep words longer
than 2 characters that are not stop words, lowercase them. -/
def extractTokens (n : List Char) : List (List Char) :=
  ((wordsOf n).filter
    (fun w => decide (2 < w.length) && !(commonWordsL.contains w))).map toLowerL

/-- jaccardSimilarity of the source: JS Sets are finite sets of tokens, and
the score is |intersection| / |union| guarded by union nonemptiness. -/
def jaccardSimilarity (t1 t2 : List (List Char)) : ℚ :=
  let s1 := t1.toFinset
  let s2 := t2.toFinset
  let interCard := (s1 ∩ s2).card
  let unionCard := (s1 ∪ s2).card
  if 0 < unionCard then (interCard : ℚ) / (unionCard : ℚ) else 0

/-- levenshteinDistance of the source: the dynamic-programming matrix of the
JS code computes the standard unit-cost Levenshtein distance, embedded here
via Mathlib's row-based levenshtein with the unit cost structure. -/
def levenshteinDistance (a b : List Char) : ℕ :=
  levenshtein Levenshtein.defaultCost a b

/-! ### extractModelNumbers: the six /g regexes of the source, each embedded
as a deterministic match-at-position function.  Every pattern consists of
character-class runs, so greedy matching with backtracking reduces to
arithmetic on maximal run lengths; each matcher's comment records the
argument.  The title is scanned left to right, and after a match scanning
resumes immediately after it, exactly as JS global matching does. -/

/-- True when a \b word boundary precedes the current position, given the
previous character (none at the string start); used only when the first
matched character is a word character. -/
def boundaryBefore (prev : Option Char) : Bool :=
  match prev with
  | none => true
  | some pc => !isWordC pc

/-- True when a \b word boundary follows the match, given the rest of the
string; used only when the last matched character is a word character. -/
def boundaryAfter (rest : List Char) : Bool :=
  match rest with
  | [] => true
  | c :: _ => !isWordC c

/-- Pattern \b[A-Z]{2,5}-?[0-9]{4,8}\b.  Greedy [A-Z]{2,5} can only succeed
by taking the whole uppercase run: any shorter take leaves an uppercase
letter where - or a digit is required.  Runs longer than 5, digit runs
outside 4..8, and a word character after the digits all force total failure
because every backtrack re-exposes a word character to the trailing \b. -/
def p1MatchAt (prev : Option Char) (s : List Char) : Option Nat :=
  let L := countRun isUpperC s
  if boundaryBefore prev && 2 ≤ L && L ≤ 5 then
    match s.drop L with
    | '-' :: s2 =>
      let D := countRun isDigitC s2
      if 4 ≤ D && D ≤ 8 && boundaryAfter (s2.drop D) then some (L + 1 + D) else none
    | s1 =>
      let D := countRun isDigitC s1
      if 4 ≤ D && D ≤ 8 && boundaryAfter (s1.drop D) then some (L + D) else none
  else none

/-- Pattern \b[0-9]{3,}[A-Z]{1,4}\b.  The digit run and the letter run are
both forced to their maximal lengths (shorter takes re-expose a run
character where the next class or the final \b must match). -/
def p2MatchAt (prev : Option Char) (s : List Char) : Option Nat :=
  let D := countRun isDigitC s
  if boundaryBefore prev && 3 ≤ D then
    let L := countRun isUpperC (s.drop D)
    if 1 ≤ L && L ≤ 4 && boundaryAfter (s.drop (D + L)) then some (D + L) else none
  else none

/-- Pattern \b[A-Z0-9]{5,12}\b.  Only the whole [A-Z0-9] run can satisfy
both boundaries, so the run length must lie in 5..12 and be followed by a
non-word character. -/
def p3MatchAt (prev : Option Char) (s : List Char) : Option Nat :=
  let R := countRun (fun c => isUpperC c || isDigitC c) s
  if boundaryBefore prev && 5 ≤ R && R ≤ 12 && boundaryAfter (s.drop R) then
    some R
  else none

/-- Pattern #[A-Z0-9-]+\b.  Hyphens are non-word characters, so the greedy
plus backtracks: the match keeps the longest prefix of the class run whose
last character's word-ness differs from that of the following character. -/
def p4MatchAt (_prev : Option Char) (s : List Char) : Option Nat :=
  match s with
  | '#' :: rest =>
    let R := countRun (fun c => isUpperC c || isDigitC c || c = '-') rest
    let run := rest.take R
    let sentinel := (rest.drop R).headD ' '
    let ok := fun (k : Nat) =>
      let last := run.getD (k - 1) ' '
      let nxt := if k < R then run.getD k ' ' else sentinel
      isWordC last != isWordC nxt
    match (((List.range R).map (· + 1)).reverse).find? ok with
    | some k => some (1 + k)
    | none => none
  | _ => none

/-- Pattern \b[A-Z]+[0-9]+[A-Z]*\b.  All three runs are forced maximal: a
shorter take re-exposes a run character to the wrong class or to \b. -/
def p5MatchAt (prev : Option Char) (s : List Char) : Option Nat :=
  let L1 := countRun isUpperC s
  if boundaryBefore prev && 1 ≤ L1 then
    let D := countRun isDigitC (s.drop L1)
    if 1 ≤ D then
      let L2 := countRun isUpperC (s.drop (L1 + D))
      if boundaryAfter (s.drop (L1 + D + L2)) then some (L1 + D + L2) else none
    else none
  else none

/-- Pattern \b[0-9]{12,14}\b (UPC runs).  As for p3, only whole runs of
length 12..14 followed by a non-word character can match. -/
def p6MatchAt (prev : Option Char) (s : List Char) : Option Nat :=
  let D := countRun isDigitC s
  if boundaryBefore prev && 12 ≤ D && D ≤ 14 && boundaryAfter (s.drop D) then
    some D
  else none

/-- Global scan for one pattern: try the matcher at every position from the
left; on a match record it and resume right after it (all matchers return
positive lengths).  Fuel is the remaining string length plus one. -/
def scanPatAux (matchAt : Option Char → List Char → Option Nat) :
    Nat → Option Char → List Char → List (List Char)
  | 0, _, _ => []
  | _ + 1, _, [] => []
  | fuel + 1, prev, c :: rest =>
    match matchAt prev (c :: rest) with
    | some n =>
      let m := (c :: rest).take n
      m :: scanPatAux matchAt fuel (some (m.getLastD c)) ((c :: rest).drop n)
    | none => scanPatAux matchAt fuel (some c) rest

/-- All matches of one pattern in a title, in order (title.match(re) with
the g flag). -/
def scanPat (matchAt : Option Char → List Char → Option Nat)
    (l : List Char) : List (List Char) :=
  scanPatAux matchAt (l.length + 1) none l

/-- The /^(THE|AND|FOR|WITH)$/i filter of extractModelNumbers. -/
def isCommonPatternWord (m : List Char) : Bool :=
  let u := m.map toUpperC
  u = "THE".data || u = "AND".data || u = "FOR".data || u = "WITH".data

/-- First-seen-wins deduplication, the JS Set insertion order. -/
def dedupFirstAux : List (List Char) → List (List Char) → List (List Char)
  | [], _ => []
  | x :: xs, seen =>
    if x ∈ seen then dedupFirstAux xs seen else x :: dedupFirstAux xs (x :: seen)

/-- First-seen-wins deduplication of a token list. -/
def dedupFirst (l : List (List Char)) : List (List Char) := dedupFirstAux l []

/-- extractModelNumbers from the source: collect the matches of the six
patterns in order, keep those of length at least 4 that are not common
words, uppercase them and strip non-word characters, and deduplicate. -/
def extractModelNumbers (title : List Char) : List (List Char) :=
  let pats := [p1MatchAt, p2MatchAt, p3MatchAt, p4MatchAt, p5MatchAt, p6MatchAt]
  let all := pats.flatMap (fun p => scanPat p title)
  let kept := all.filter (fun m => decide (4 ≤ m.length) && !isCommonPatternWord m)
  dedupFirst (kept.map (fun m => (m.map toUpperC).filter isWordC))

/-- The model-number short-circuit condition of calculateTitleSimilarity:
both titles yield at least one code and some pair of codes is equal or one
contains the other. -/
def modelsMatchB (t1 t2 : List Char) : Bool :=
  let models1 := extractModelNumbers t1
  let models2 := extractModelNumbers t2
  !models1.isEmpty && !models2.isEmpty &&
    models1.any (fun m1 => models2.any (fun m2 =>
      m1 = m2 || containsSub m1 m2 || containsSub m2 m1))

/-! ### calculateTitleSimilarity -/

/-- The product record consumed by the matcher and the orchestrator
(nullable fields are Options, JS numbers are rationals). -/
structure ProductIn where
  retailer : String
  title : String
  price : Option ℚ
  brand : Option String
  url : String
  imageUrl : Option String
  deriving DecidableEq, Repr

/-- The brand used for brand matching: the normalized explicit hint when
currentProduct and its brand are truthy (a non-empty raw string), else the
first two words of the normalized reference title. -/
def brandOf (cur : Option ProductIn) (n1 : List Char) : List Char :=
  match cur with
  | some cp =>
    match cp.brand with
    | some b => if b = "" then firstTwoWords n1 else normalizeL b.data
    | none => firstTwoWords n1
  | none => firstTwoWords n1

/-- The bothHaveBrand condition: the brand is truthy (non-empty) and a
substring of each normalized title. -/
def bothShareBrand (n1 n2 brand : List Char) : Bool :=
  (!brand.isEmpty && containsSub n1 brand) && (!brand.isEmpty && containsSub n2 brand)

/-- The weighted hybrid branch of calculateTitleSimilarity: brand weight
0.3, Jaccard weight 0.4, Levenshtein weight 0.3, normalised by the total
weight, boosted by 0.1 (capped at 0.95) on a shared brand with token
overlap above 0.5, penalised by 0.1 (floored at 0) on token overlap above
0.6 without a shared brand, finally clamped into [0, 1]. -/
def hybridScore (n1 n2 brand : List Char) : ℚ :=
  let bothHaveBrand := bothShareBrand n1 n2 brand
  let brandMatchScore : ℚ := if bothHaveBrand then 8/10 else 3/10
  let jaccardScore := jaccardSimilarity (extractTokens n1) (extractTokens n2)
  let maxLen := max n1.length n2.length
  let editDistance := levenshteinDistance n1 n2
  let levenshteinScore : ℚ :=
    if 0 < maxLen then 1 - (editDistance : ℚ) / (maxLen : ℚ) else 0
  let base := brandMatchScore * (3/10) + jaccardScore * (4/10) +
    levenshteinScore * (3/10)
  let totalWeight : ℚ := 3/10 + 4/10 + 3/10
  let normed := if 0 < totalWeight then base / totalWeight else 0
  let boosted :=
    if bothHaveBrand && decide (jaccardScore > 1/2) then
      min (95/100) (normed + 1/10)
    else normed
  let penalized :=
    if !bothHaveBrand && decide (jaccardScore > 6/10) then
      max 0 (boosted - 1/10)
    else boosted
  min 1 (max 0 penalized)

/-- calculateTitleSimilarity from the source: falsy titles score 0, equal
normalized titles 1.0, containment 0.95, a model-number match 0.95, and
otherwise the weighted hybrid score. -/
def calculateTitleSimilarity (title1 title2 : String)
    (currentProduct : Option ProductIn) : ℚ :=
  if title1 = "" || title2 = "" then 0
  else
    let n1 := normalizeL title1.data
    let n2 := normalizeL title2.data
    if n1 = n2 then 1
    else if containsSub n1 n2 || containsSub n2 n1 then 95/100
    else if modelsMatchB title1.data title2.data then 95/100
    else hybridScore n1 n2 (brandOf currentProduct n1)

/-! ### Price parsing (parsePriceTextUSDOnly in comparison_modal.js and
parsePriceText in price_utils.js).

Both numeric alternations have the shape
  [0-9]{1,3}(sep [0-9]{3})*(\.frac)?  |  [0-9]+(\.frac)?
Everything after the leading greedy digit take is nullable, so the JS
engine never backtracks into a successful leading take: alternative one
matches at any position with at least one digit, taking min(3, run) digits,
then greedily whole (separator + three digits) groups, then the optional
fraction. -/

/-- Separator class [,  ] of the thousands groups. -/
def isSepC (c : Char) : Bool := c = ',' || c = ' ' || c = Char.ofNat 160

/-- Greedy (?:[,  ][0-9]{3})*: each iteration consumes one separator
and exactly three digits; returns the number of characters consumed. -/
def starSepGroups : List Char → Nat
  | c :: d1 :: d2 :: d3 :: rest =>
    if isSepC c && isDigitC d1 && isDigitC d2 && isDigitC d3 then
      4 + starSepGroups rest
    else 0
  | _ => 0

/-- Optional fraction (?:\.[0-9]{2})? — a dot and exactly two digits. -/
def fracTwo : List Char → Nat
  | '.' :: d1 :: d2 :: _ => if isDigitC d1 && isDigitC d2 then 3 else 0
  | _ => 0

/-- Optional fraction (?:\.[0-9]+)? — a dot and one or more digits. -/
def fracMany (s : List Char) : Nat :=
  match s with
  | '.' :: rest =>
    let D := countRun isDigitC rest
    if 1 ≤ D then 1 + D else 0
  | _ => 0

/-- The numeric capture group shared by both price regexes, parameterised
by the fraction matcher; none when no digit starts here. -/
def numCapture (frac : List Char → Nat) (s : List Char) : Option (List Char) :=
  let d := countRun isDigitC s
  if d = 0 then none
  else
    let k := min d 3
    let rest1 := s.drop k
    let g := starSepGroups rest1
    let f := frac (rest1.drop g)
    some (s.take (k + g + f))

/-- Digit list to natural number. -/
def digitsToNat : List Char → Nat
  | [] => 0
  | c :: cs => digitsToNat cs + (c.toNat - '0'.toNat) * 10 ^ cs.length

/-- parseFloat on a cleaned capture (digits, optionally a dot and digits);
exact rational value. -/
def parseDecimal (l : List Char) : ℚ :=
  let intPart := l.takeWhile (fun c => c ≠ '.')
  let fracPart := (l.dropWhile (fun c => c ≠ '.')).drop 1
  (digitsToNat intPart : ℚ) + (digitsToNat fracPart : ℚ) / (10 ^ fracPart.length : ℚ)

/-- One attempt of the strict USD regex at a position: a dollar sign, then
\s*, then the numeric group with a two-digit fraction. -/
def usdMatchAt (s : List Char) : Option (List Char) :=
  match s with
  | [] => none
  | c :: rest => if c = '$' then numCapture fracTwo (rest.dropWhile isSpaceC) else none

/-- Leftmost match of the strict USD regex: scan positions left to right. -/
def findUsd : List Char → Option (List Char)
  | [] => none
  | c :: rest =>
    match usdMatchAt (c :: rest) with
    | some cap => some cap
    | none => findUsd rest

/-- parsePriceTextUSDOnly from comparison_modal.js: require a $-prefixed
amount, strip separators, parse, and reject non-positive values. -/
def parsePriceTextUSDOnly (text : String) : Option ℚ :=
  match findUsd text.data with
  | none => none
  | some cap =>
    let value := parseDecimal (cap.filter (fun c => !isSepC c))
    if value ≤ 0 then none else some value

/-- One attempt of the lenient price regex ([£€¥$])?\s*(number) at a
position: an optional currency symbol, then \s*, then the numeric group
with a one-or-more-digit fraction; the capture is the numeric group. -/
def priceMatchAt (s : List Char) : Option (List Char) :=
  let afterSym :=
    match s with
    | c :: rest => if c = '£' || c = '€' || c = '¥' || c = '$' then rest else s
    | [] => s
  numCapture fracMany (afterSym.dropWhile isSpaceC)

/-- Leftmost match of the lenient price regex. -/
def findPrice : List Char → Option (List Char)
  | [] => none
  | c :: rest =>
    match priceMatchAt (c :: rest) with
    | some cap => some cap
    | none => findPrice rest

/-- parsePriceText from price_utils.js: replace NBSP by spaces, find the
first currency-like number, strip separators and parse.  Note the source
has no positivity check: a located zero is returned as 0, not null. -/
def parsePriceText (text : String) : Option ℚ :=
  match findPrice (text.data.map (fun c => if c = Char.ofNat 160 then ' ' else c)) with
  | none => none
  | some cap => some (parseDecimal (cap.filter (fun c => !isSepC c)))

/-! ### Retailer identification (extractRetailerName and RETAILER_MAP) -/

/-- The ordered RETAILER_MAP of hostname fragments to display names
(Object.entries iterates in insertion order). -/
def retailerMapL : List (String × String) :=
  [("amazon", "Amazon"), ("target", "Target"), ("walmart", "Walmart"),
   ("costco", "Costco"), ("bestbuy", "Best Buy"), ("best-buy", "Best Buy"),
   ("ebay", "eBay"), ("kroger", "Kroger"), ("walgreens", "Walgreens"),
   ("frysfood", "Fry\x27s Food"), ("homedepot", "Home Depot"),
   ("home-depot", "Home Depot"), ("lowes", "Lowe\x27s"), ("kohls", "Kohl\x27s"),
   ("macys", "Macy\x27s"), ("jcpenney", "JCPenney"), ("jc-penney", "JCPenney"),
   ("sears", "Sears"), ("overstock", "Overstock"), ("wayfair", "Wayfair"),
   ("zappos", "Zappos"), ("newegg", "Newegg"), ("bhphotovideo", "B&H Photo"),
   ("bhphoto", "B&H Photo"), ("microcenter", "Micro Center"),
   ("micro-center", "Micro Center"), ("frys", "Fry\x27s Electronics"),
   ("apple", "Apple"), ("microsoft", "Microsoft Store"),
   ("staples", "Staples"), ("officedepot", "Office Depot"),
   ("office-depot", "Office Depot"), ("officemax", "OfficeMax"),
   ("rei", "REI"), ("dickssportinggoods", "Dick\x27s Sporting Goods"),
   ("dicks", "Dick\x27s Sporting Goods"), ("academy", "Academy Sports"),
   ("chewy", "Chewy"), ("petco", "Petco"), ("petsmart", "PetSmart"),
   ("pet-smart", "PetSmart"), ("bedbathandbeyond", "Bed Bath & Beyond"),
   ("bed-bath-and-beyond", "Bed Bath & Beyond"),
   ("crateandbarrel", "Crate & Barrel"), ("crate-and-barrel", "Crate & Barrel"),
   ("potterybarn", "Pottery Barn"), ("pottery-barn", "Pottery Barn"),
   ("westelm", "West Elm"), ("west-elm", "West Elm"), ("ikea", "IKEA"),
   ("gamestop", "GameStop"), ("game-stop", "GameStop"),
   ("ulta", "Ulta Beauty"), ("sephora", "Sephora"), ("nordstrom", "Nordstrom"),
   ("nordstromrack", "Nordstrom Rack"), ("nordstrom-rack", "Nordstrom Rack"),
   ("nike", "Nike"), ("adidas", "Adidas"), ("sony", "Sony"),
   ("samsung", "Samsung"), ("dell", "Dell"), ("hp", "HP"),
   ("lenovo", "Lenovo"), ("jbl", "JBL"), ("lg", "LG"), ("tcl", "TCL")]

/-- Strip a single leading "www." (replace(/^www\./, '')). -/
def stripWww (l : List Char) : List Char :=
  if startsWithL l "www.".data then l.drop 4 else l

/-- Hostname of new URL(u) for an http/https URL: the authority up to the
first of / ? #, with userinfo and port removed; none models the URL
constructor throwing on an empty host. -/
def urlHostname (afterScheme : List Char) : Option (List Char) :=
  let authority := afterScheme.takeWhile (fun c => !(c = '/' || c = '?' || c = '#'))
  let hostPort := (authority.splitOnP (fun c => c = '@')).getLastD []
  let host := hostPort.takeWhile (fun c => c ≠ ':')
  if host.isEmpty then none else some host

/-- Capitalise the first character (charAt(0).toUpperCase() + slice(1)). -/
def capFirst : List Char → List Char
  | [] => []
  | c :: cs => toUpperC c :: cs

/-- Insert spaces at lower-to-upper camel-case boundaries
(replace(/([a-z])([A-Z])/g, ...)). -/
def camelSplit : List Char → List Char
  | [] => []
  | [c] => [c]
  | a :: b :: rest =>
    if isLowerC a && isUpperC b then a :: ' ' :: camelSplit (b :: rest)
    else a :: camelSplit (b :: rest)

/-- The readable fallback of extractRetailerName: camel-case split, hyphens
to spaces, split on single spaces (keeping empties, as JS split(' ')),
capitalise each fragment, join with single spaces. -/
def readableDomain (domain : List Char) : List Char :=
  let spaced := (camelSplit domain).map (fun c => if c = '-' then ' ' else c)
  List.intercalate [' '] ((spaced.splitOnP (fun c => c = ' ')).map capFirst)

/-- The special-case renames applied to the bare second-level domain. -/
def specialCasesL : List (String × String) :=
  [("kohls", "Kohl\x27s"), ("macys", "Macy\x27s"), ("jcpenney", "JCPenney"),
   ("dicks", "Dick\x27s"), ("bedbathandbeyond", "Bed Bath & Beyond")]

/-- The shared tail of extractRetailerName once a lowercased, www-stripped
hostname is available: retailer map lookup on the hostname, then on the
second-level domain, then special cases, then the readable transform. -/
def retailerFromHostname (hostname : List Char) : String :=
  match retailerMapL.find? (fun pr => containsSub hostname pr.1.data) with
  | some pr => pr.2
  | none =>
    let parts := hostname.splitOnP (fun c => c = '.')
    if 2 ≤ parts.length then
      let domain := parts.getD (parts.length - 2) []
      match retailerMapL.find? (fun pr => containsSub domain pr.1.data) with
      | some pr => pr.2
      | none =>
        match specialCasesL.find? (fun pr => pr.1.data = domain) with
        | some pr => pr.2
        | none =>
          let readable := readableDomain domain
          if !readable.isEmpty then String.mk readable
          else String.mk (capFirst domain)
    else "Other Retailer"

/-- One attempt of the catch-branch regex (?:www\.)?([^.]+)\.[^.]+ at a
position: the greedy optional www. is tried first and backtracked if the
capture cannot complete. -/
def catchCaptureAt (s : List Char) : Option (List Char) :=
  let attempt : List Char → Option (List Char) := fun r =>
    let R1 := countRun (fun c => c ≠ '.') r
    if 1 ≤ R1 && (r.drop R1).headD ' ' = '.' &&
        1 ≤ countRun (fun c => c ≠ '.') (r.drop (R1 + 1)) then
      some (r.take R1)
    else none
  if startsWithL s "www.".data then
    match attempt (s.drop 4) with
    | some cap => some cap
    | none => attempt s
  else attempt s

/-- Leftmost match of the catch-branch regex. -/
def catchCapture : List Char → Option (List Char)
  | [] => none
  | c :: rest =>
    match catchCaptureAt (c :: rest) with
    | some cap => some cap
    | none => catchCapture rest

/-- The catch branch of extractRetailerName: re-extract a domain label with
a regex, look it up in the retailer map, special-case kohls, else
capitalise. -/
def retailerFromCatch (url : List Char) : String :=
  match catchCapture url with
  | some cap =>
    let domain := toLowerL cap
    match retailerMapL.find? (fun pr => containsSub domain pr.1.data) with
    | some pr => pr.2
    | none =>
      if domain = "kohls".data then "Kohl\x27s"
      else String.mk (capFirst domain)
  | none => "Other Retailer"

/-- extractRetailerName from the source: parse the hostname from a full
URL (or take a bare hostname), strip www., and map it to a display name;
on URL-parse failure fall back to the regex-based catch branch. -/
def extractRetailerName (url : String) : String :=
  if url = "" then "Other Retailer"
  else
    let u := url.data
    if startsWithL u "http://".data then
      match urlHostname (u.drop 7) with
      | some h => retailerFromHostname (stripWww (toLowerL h))
      | none => retailerFromCatch u
    else if startsWithL u "https://".data then
      match urlHostname (u.drop 8) with
      | some h => retailerFromHostname (stripWww (toLowerL h))
      | none => retailerFromCatch u
    else retailerFromHostname (stripWww (stripWww (toLowerL u)))

/-! ### The result filter pipeline of parseShoppingResults -/

/-- Non-US domain fragments rejected by the locale filter. -/
def nonUSDomainsL : List String :=
  [".com.ph", ".com.au", ".co.uk", ".com.br", ".com.mx", ".ca", ".co.jp",
   ".fr", ".de", ".it", ".es", ".nl", ".com.sg", ".com.hk", ".co.in",
   ".com.tr", ".com.ar", ".co.za", ".com.tw", ".com.cn", ".ae", ".sa"]

/-- Country codes of the hostname-suffix regex \.(ph|au|...)$. -/
def ccTldsL : List String :=
  ["ph", "au", "uk", "br", "mx", "jp", "fr", "de", "it", "es", "nl", "sg",
   "hk", "in", "tr", "ar", "za", "tw", "cn", "ae", "sa"]

/-- Social, media, news and forum domains rejected by the non-retailer
filter. -/
def nonRetailerDomainsL : List String :=
  ["reddit.com", "redd.it", "facebook.com", "fb.com", "twitter.com",
   "x.com", "instagram.com", "pinterest.com", "tiktok.com", "youtube.com",
   "youtu.be", "wikipedia.org", "wikimedia.org", "quora.com", "medium.com",
   "linkedin.com", "tumblr.com", "blogspot.com", "blogger.com",
   "wordpress.com", "yahoo.com", "yahoo.co", "buzzfeed.com", "cnn.com",
   "bbc.com", "nytimes.com", "washingtonpost.com", "wsj.com",
   "usatoday.com", "theverge.com", "techcrunch.com", "engadget.com",
   "arstechnica.com", "amazon.com/review", "amazon.com/customer-reviews",
   "amazon.com/product-reviews"]

/-- Path fragments of clearly non-product pages. -/
def nonProductPatternsL : List String :=
  ["/search", "/category", "/categories", "/brand", "/brands", "/review",
   "/reviews", "/compare", "/guide", "/help", "/blog", "/article", "/news",
   "/about", "/contact", "/faq", "/sitemap", "/cart", "/checkout",
   "/account", "/profile", "/wishlist"]

/-- Known retailer domains trusted even without a product-page pattern. -/
def knownRetailerDomainsL : List String :=
  ["amazon.com", "target.com", "walmart.com", "bestbuy.com", "ebay.com",
   "costco.com", "homedepot.com", "lowes.com", "kohls.com", "macys.com",
   "newegg.com", "staples.com", "officedepot.com", "kroger.com",
   "walgreens.com", "frysfood.com"]

/-- Brand domains that must match a product-page pattern. -/
def brandDomainsL : List String :=
  ["jbl.com", "nike.com", "apple.com", "samsung.com", "sony.com", "dell.com"]

/-- Complement of '/', the regex class [^\/]. -/
def isNonSlashC (c : Char) : Bool := !(c = '/')

/-- The class [A-Z0-9] under the i flag on lowercased text. -/
def isAlnumLowC (c : Char) : Bool := isLowerC c || isDigitC c

/-- Hostname capture of /https?:\/\/([^/]+)/ attempted from one suffix. -/
def hostFrom (r : List Char) : Option (List Char) :=
  let R := countRun isNonSlashC r
  if 1 ≤ R then some (r.take R) else none

/-- Leftmost hostname capture of url.match(/https?:\/\/([^/]+)/). -/
def findHttpHost : List Char → Option (List Char)
  | [] => none
  | c :: rest =>
    match
      (if startsWithL (c :: rest) "https://".data then hostFrom ((c :: rest).drop 8)
       else if startsWithL (c :: rest) "http://".data then hostFrom ((c :: rest).drop 7)
       else none) with
    | some h => some h
    | none => findHttpHost rest

/-- Path capture of /https?:\/\/[^\/]+\/(.*)/ attempted from one suffix:
a non-empty host, a slash, then everything up to a newline. -/
def pathFrom (r : List Char) : Option (List Char) :=
  let R := countRun isNonSlashC r
  if 1 ≤ R && R < r.length then
    some ((r.drop (R + 1)).takeWhile (fun c => c ≠ '\n'))
  else none

/-- Leftmost path capture of url.match(/https?:\/\/[^\/]+\/(.*)/). -/
def findUrlPath : List Char → Option (List Char)
  | [] => none
  | c :: rest =>
    match
      (if startsWithL (c :: rest) "https://".data then pathFrom ((c :: rest).drop 8)
       else if startsWithL (c :: rest) "http://".data then pathFrom ((c :: rest).drop 7)
       else none) with
    | some p => some p
    | none => findUrlPath rest

/-- The .* of /\/store\/.*\/id=/: search for the literal along non-newline
characters. -/
def dotStarThen (lit : List Char) : List Char → Bool
  | [] => lit.isEmpty
  | c :: rest =>
    if lit.isPrefixOf (c :: rest) then true
    else if c = '\n' then false
    else dotStarThen lit rest

/-- Pattern /\/dp\/[A-Z0-9]{10}/i at one position. -/
def patDp (s : List Char) : Bool :=
  startsWithL s "/dp/".data && decide (((s.drop 4).take 10).length = 10) &&
    ((s.drop 4).take 10).all isAlnumLowC

/-- Pattern /\/gp\/product\/[A-Z0-9]/i at one position. -/
def patGpProduct (s : List Char) : Bool :=
  startsWithL s "/gp/product/".data && isAlnumLowC ((s.drop 12).headD ' ')

/-- Pattern /\/product\/[A-Z0-9]/i at one position. -/
def patProductAl (s : List Char) : Bool :=
  startsWithL s "/product/".data && isAlnumLowC ((s.drop 9).headD ' ')

/-- Pattern /\/p\/[^\/]+/i at one position. -/
def patPslug (s : List Char) : Bool :=
  startsWithL s "/p/".data && isNonSlashC ((s.drop 3).headD '/')

/-- Pattern /\/p\/[A-Z0-9-]+\//i at one position: the class excludes the
slash, so only the whole run followed by a slash can match. -/
def patPdashSlash (s : List Char) : Bool :=
  startsWithL s "/p/".data &&
    (let r := s.drop 3
     let R := countRun (fun c => isAlnumLowC c || c = '-') r
     decide (1 ≤ R) && (r.drop R).headD ' ' = '/')

/-- Pattern /\/product\/[0-9]+/i at one position. -/
def patProductNum (s : List Char) : Bool :=
  startsWithL s "/product/".data && isDigitC ((s.drop 9).headD ' ')

/-- Pattern /\/ip\/[^\/]+\/[0-9]+/i at one position. -/
def patIp (s : List Char) : Bool :=
  startsWithL s "/ip/".data &&
    (let r := s.drop 4
     let R := countRun isNonSlashC r
     decide (1 ≤ R) && (r.drop R).headD ' ' = '/' &&
       isDigitC ((r.drop (R + 1)).headD ' '))

/-- Pattern /\/store\/.*\/id=/i at one position. -/
def patStoreId (s : List Char) : Bool :=
  startsWithL s "/store/".data && dotStarThen "/id=".data (s.drop 7)

/-- Pattern /\/product[s]?\/[^\/]+/i at one position. -/
def patProductsOpt (s : List Char) : Bool :=
  (startsWithL s "/products/".data && isNonSlashC ((s.drop 10).headD '/')) ||
  (startsWithL s "/product/".data && isNonSlashC ((s.drop 9).headD '/'))

/-- Pattern /\/item[s]?\/[^\/]+/i at one position. -/
def patItemsOpt (s : List Char) : Bool :=
  (startsWithL s "/items/".data && isNonSlashC ((s.drop 7).headD '/')) ||
  (startsWithL s "/item/".data && isNonSlashC ((s.drop 6).headD '/'))

/-- Pattern /\/products\/[^\/]+/i at one position. -/
def patProductsSlug (s : List Char) : Bool :=
  startsWithL s "/products/".data && isNonSlashC ((s.drop 10).headD '/')

/-- Pattern /\/shop\/[^\/]+\/[^\/]+/i at one position. -/
def patShop (s : List Char) : Bool :=
  startsWithL s "/shop/".data &&
    (let r := s.drop 6
     let R := countRun isNonSlashC r
     decide (1 ≤ R) && (r.drop R).headD ' ' = '/' &&
       isNonSlashC ((r.drop (R + 1)).headD '/'))

/-- Pattern /\/buy\/[^\/]+/i at one position. -/
def patBuy (s : List Char) : Bool :=
  startsWithL s "/buy/".data && isNonSlashC ((s.drop 5).headD '/')

/-- Pattern /\/site\/[^\/]+\/[^\/]+\/p\.aspx/i at one position. -/
def patSite (s : List Char) : Bool :=
  startsWithL s "/site/".data &&
    (let r := s.drop 6
     let R1 := countRun isNonSlashC r
     decide (1 ≤ R1) && (r.drop R1).headD ' ' = '/' &&
       (let r2 := r.drop (R1 + 1)
        let R2 := countRun isNonSlashC r2
        decide (1 ≤ R2) && startsWithL (r2.drop R2) "/p.aspx".data))

/-- Pattern /\/itm\/[0-9]+/i at one position. -/
def patItm (s : List Char) : Bool :=
  startsWithL s "/itm/".data && isDigitC ((s.drop 5).headD ' ')

/-- The productPagePatterns array in source order (duplicates included):
each regex test is an any over the positions of the url. -/
def isProductPageUrl (url : List Char) : Bool :=
  [patDp, patGpProduct, patProductAl, patPslug, patPdashSlash, patProductNum,
   patIp, patProductNum, patStoreId, patProductsOpt, patItemsOpt, patPslug,
   patProductsSlug, patShop, patBuy, patSite, patItm].any
    (fun pat => url.tails.any pat)

/-- The per-item filter chain of parseShoppingResults, applied to the
lowercased url, in source order: commerce-domain, locale, non-retailer,
non-product-path, app-store, homepage, and the product-page/known-retailer
acceptance logic. -/
def passesFilters (url : List Char) : Bool :=
  if containsSub url ".org/".data || containsSub url ".edu/".data ||
      containsSub url ".gov/".data ||
      (containsSub url ".org".data && !containsSub url "search".data) then
    false
  else if nonUSDomainsL.any (fun d => containsSub url d.data) then false
  else
    let hostname := (findHttpHost url).getD []
    if !hostname.isEmpty &&
        (endsWithL hostname ".co.uk".data || endsWithL hostname ".com.au".data ||
         endsWithL hostname ".com.ph".data || endsWithL hostname ".ca".data ||
         ccTldsL.any (fun cc => endsWithL hostname ("." ++ cc).data)) then
      false
    else if nonRetailerDomainsL.any
        (fun d => containsSub hostname d.data || containsSub url d.data) then
      false
    else
      let isProductPage := isProductPageUrl url
      if nonProductPatternsL.any (fun p => containsSub url p.data) then false
      else if containsSub url "apps.apple.com".data ||
          containsSub url "play.google.com".data ||
          containsSub url "app-store".data ||
          (containsSub url "/app/".data && !containsSub url "/product".data) then
        false
      else
        let urlPath := (findUrlPath url).getD []
        if (urlPath.isEmpty || (trimL urlPath).isEmpty || urlPath = ['/']) &&
            !containsSub hostname "target.com".data then
          false
        else if !isProductPage then
          if brandDomainsL.any (fun d => containsSub hostname d.data) then false
          else if !(knownRetailerDomainsL.any (fun d => containsSub hostname d.data)) then
            false
          else true
        else true

/-! ### parseShoppingResults -/

/-- A result row shown in the modal (the price and availability fields are
absent on parsed API rows). -/
structure ResultEntry where
  retailer : String
  price : Option ℚ
  url : String
  imageUrl : Option String
  title : String
  availability : Option String
  isCurrentPage : Bool
  deriving DecidableEq, Repr

/-- A pagemap image value, which the source accepts as a scalar or an
array (Array.isArray branches). -/
inductive ImageVal where
  | one (s : String)
  | many (l : List String)
  deriving DecidableEq, Repr

/-- A pagemap product entry (only the image field is read). -/
structure ProductEntry where
  image : Option ImageVal
  deriving DecidableEq, Repr

/-- A pagemap cse_image entry. -/
structure CseImage where
  src : Option String
  deriving DecidableEq, Repr

/-- The pagemap fields read by extractImageUrl; the source arrayifies
scalar values, so list fields model the arrayified view. -/
structure Pagemap where
  cse_image : Option (List CseImage)
  product : Option (List ProductEntry)
  deriving DecidableEq, Repr

/-- One untrusted search-API item (fields read by the parser). -/
structure ApiItem where
  link : Option String
  displayLink : Option String
  title : Option String
  pagemap : Option Pagemap
  deriving DecidableEq, Repr

/-- The API response: the items array may be absent. -/
structure ApiData where
  items : Option (List ApiItem)
  deriving DecidableEq, Repr

/-- JS a || b for strings: the empty string is falsy. -/
def jsOrS (a : Option String) (b : String) : String :=
  match a with
  | some s => if s = "" then b else s
  | none => b

/-- The product-image loop of extractImageUrl: a truthy scalar image is
returned, an array image returns its first element (even when absent, the
return still ends the loop), a falsy image moves to the next product. -/
def findProductImage : List ProductEntry → Option String
  | [] => none
  | p :: rest =>
    match p.image with
    | some (.many l) => l.head?
    | some (.one s) => if s = "" then findProductImage rest else some s
    | none => findProductImage rest

/-- extractImageUrl from the source: first a truthy cse_image[0].src, then
the product images. -/
def extractImageUrl (item : ApiItem) : Option String :=
  match item.pagemap with
  | none => none
  | some pm =>
    match
      (match pm.cse_image with
       | some (img :: _) =>
         match img.src with
         | some s => if s = "" then none else some s
         | none => none
       | _ => none) with
    | some s => some s
    | none =>
      match pm.product with
      | some ps => findProductImage ps
      | none => none

/-- The current page entry always pushed first by parseShoppingResults. -/
def currentPageEntry (p : ProductIn) : ResultEntry :=
  { retailer := p.retailer, price := p.price, url := p.url,
    imageUrl := p.imageUrl, title := p.title,
    availability := some "In Stock", isCurrentPage := true }

/-- Per-item processing of parseShoppingResults: run the filter chain on
the lowercased link, then identify the retailer, drop duplicates and the
current retailer, and build the result row. -/
def itemAccept (p : ProductIn) (added : List String) (item : ApiItem) :
    Option ResultEntry :=
  let rawUrl := jsOrS item.link (jsOrS item.displayLink "")
  let url := toLowerL rawUrl.data
  if passesFilters url then
    let retailer := extractRetailerName rawUrl
    let key := toLowerStr retailer
    if key ∈ added then none
    else if key = toLowerStr p.retailer then none
    else some
      { retailer := retailer, price := none, url := jsOrS item.link "",
        imageUrl := extractImageUrl item, title := jsOrS item.title p.title,
        availability := none, isCurrentPage := false }
  else none

/-- The forEach loop over items, threading the addedRetailers set. -/
def processItems (p : ProductIn) : List ApiItem → List String → List ResultEntry
  | [], _ => []
  | item :: rest, added =>
    match itemAccept p added item with
    | none => processItems p rest added
    | some e => e :: processItems p rest (added ++ [toLowerStr e.retailer])

/-- parseShoppingResults from the source: the current page entry first,
then the filtered, deduplicated API items (none when the items array is
absent). -/
def parseShoppingResults (apiData : ApiData) (p : ProductIn) : List ResultEntry :=
  currentPageEntry p ::
    (match apiData.items with
     | some items => processItems p items [toLowerStr p.retailer]
     | none => [])

/-! ### Fallback results, the cache, and the orchestrator flow -/

/-- Unreserved characters of encodeURIComponent. -/
def isUnreservedC (c : Char) : Bool :=
  isUpperC c || isLowerC c || isDigitC c || c = '-' || c = '_' || c = '.' ||
    c = '!' || c = '~' || c = '*' || c = Char.ofNat 39 || c = '(' || c = ')'

/-- Upper-case hex digit of a value below 16. -/
def hexDigitC (n : Nat) : Char :=
  if n < 10 then Char.ofNat ('0'.toNat + n) else Char.ofNat ('A'.toNat + n - 10)

/-- UTF-8 bytes of a code point. -/
def utf8Bytes (n : Nat) : List Nat :=
  if n < 128 then [n]
  else if n < 2048 then [192 + n / 64, 128 + n % 64]
  else if n < 65536 then [224 + n / 4096, 128 + (n / 64) % 64, 128 + n % 64]
  else [240 + n / 262144, 128 + (n / 4096) % 64, 128 + (n / 64) % 64, 128 + n % 64]

/-- encodeURIComponent: keep unreserved characters, percent-encode the
UTF-8 bytes of everything else. -/
def encodeURIComponentL (l : List Char) : List Char :=
  l.flatMap (fun c =>
    if isUnreservedC c then [c]
    else (utf8Bytes c.toNat).flatMap
      (fun b => ['%', hexDigitC (b / 16), hexDigitC (b % 16)]))

/-- generateFallbackResults from the source: the current page plus
synthetic Target and Walmart rows (a null price multiplies as 0, the JS
null-to-number coercion). -/
def generateFallbackResults (p : ProductIn) : List ResultEntry :=
  [currentPageEntry p,
   { retailer := "Target", price := some ((p.price.getD 0) * (95/100)),
     url := "https://www.target.com/s?searchTerm=" ++
       String.mk (encodeURIComponentL (p.title.data.take 50)),
     imageUrl := p.imageUrl, title := p.title,
     availability := some "Check Store", isCurrentPage := false },
   { retailer := "Walmart", price := some ((p.price.getD 0) * (102/100)),
     url := "https://www.walmart.com/search?q=" ++
       String.mk (encodeURIComponentL (p.title.data.take 50)),
     imageUrl := p.imageUrl, title := p.title,
     availability := some "Check Store", isCurrentPage := false }]

/-- A stored cache entry (times in milliseconds). -/
structure CacheData where
  results : List ResultEntry
  productInfo : ProductIn
  timestamp : ℕ
  expiresAt : ℕ
  deriving DecidableEq

/-- The value resolved by loadCachedResults on a fresh hit. -/
structure LoadedCache where
  results : List ResultEntry
  productInfo : ProductIn
  timestamp : ℕ
  isCached : Bool
  deriving DecidableEq

/-- The chrome.storage.local key space. -/
def CacheStore : Type := String → Option CacheData

/-- saveCachedResults: store the results with a 24-hour expiry
(24 * 60 * 60 * 1000 milliseconds after the write time). -/
def saveCachedResults (store : CacheStore) (cacheKey : String)
    (results : List ResultEntry) (productInfo : ProductIn) (now : ℕ) : CacheStore :=
  Function.update store cacheKey
    (some { results := results, productInfo := productInfo, timestamp := now,
            expiresAt := now + 24 * 60 * 60 * 1000 })

/-- loadCachedResults: absent keys resolve to nothing; an entry whose
truthy expiresAt lies strictly in the past is removed and resolves to
nothing; otherwise the stored results are resolved with the cached flag. -/
def loadCachedResults (store : CacheStore) (cacheKey : String) (now : ℕ) :
    Option LoadedCache × CacheStore :=
  match store cacheKey with
  | none => (none, store)
  | some cached =>
    if cached.expiresAt ≠ 0 ∧ cached.expiresAt < now then
      (none, Function.update store cacheKey none)
    else
      (some { results := cached.results, productInfo := cached.productInfo,
              timestamp := cached.timestamp, isCached := true }, store)

/-- The API configuration read from the config store. -/
structure APIConfig where
  apiKey : String
  searchEngineId : String
  enabled : Bool
  deriving DecidableEq

/-- What fetchPriceComparisons displays: cached results, the synthetic
fallback set, or the live parsed results. -/
inductive FetchOutcome where
  | cached (rs : List ResultEntry)
  | fallback (rs : List ResultEntry)
  | live (rs : List ResultEntry)
  deriving DecidableEq, Repr

/-- The decision flow of fetchPriceComparisons as a pure function of the
cache lookup, the configuration, and the (optional, none on network
failure, timeout, or a non-ok status) API response: cache hit, else
fallback on a missing or disabled configuration, else fallback on a failed
request, else parse and fall back only on an empty parsed list. -/
def fetchPriceComparisonsModel (cache : Option LoadedCache)
    (config : APIConfig) (response : Option ApiData) (p : ProductIn) :
    FetchOutcome :=
  match cache with
  | some c => .cached c.results
  | none =>
    if !config.enabled || config.apiKey = "" || config.searchEngineId = "" then
      .fallback (generateFallbackResults p)
    else
      match response with
      | none => .fallback (generateFallbackResults p)
      | some data =>
        let results := parseShoppingResults data p
        if results.length = 0 then .fallback (generateFallbackResults p)
        else .live results

/-! ### Specification-side formulas for claim C5 (written from the claim's
words, to be compared with the source embedding) -/

/-- The brand as claim C5 literally reads: the (normalized) explicit hint
whenever one is present, else the first two words of the normalized
reference title.  Unlike the source, no truthiness check guards the hint. -/
def claimBrandOf (cur : Option ProductIn) (n1 : List Char) : List Char :=
  match cur with
  | some cp =>
    match cp.brand with
    | some b => normalizeL b.data
    | none => firstTwoWords n1
  | none => firstTwoWords n1

/-- The weighted formula of claim C5 as a function of the shared-brand
flag: 0.3 times the brand score (0.8 when shared, else 0.3) plus 0.4 times
the Jaccard score plus 0.3 times the edit score
1 − levenshtein / max-length, boosted by 0.1 capped at 0.95 on a shared
brand with token overlap above 0.5, penalized by 0.1 floored at 0 on token
overlap above 0.6 without a shared brand. -/
def specWeightedScore (shared : Bool) (n1 n2 : List Char) : ℚ :=
  let brandScore : ℚ := if shared then 8/10 else 3/10
  let jaccardScore := jaccardSimilarity (extractTokens n1) (extractTokens n2)
  let editScore : ℚ := 1 - (levenshteinDistance n1 n2 : ℚ) /
    ((max n1.length n2.length : ℕ) : ℚ)
  let weighted := 3/10 * brandScore + 4/10 * jaccardScore + 3/10 * editScore
  let boosted :=
    if shared && decide (jaccardScore > 1/2) then min (95/100) (weighted + 1/10)
    else weighted
  if !shared && decide (jaccardScore > 6/10) then max 0 (boosted - 1/10)
  else boosted

/-- Claim C5 as stated: the weighted formula with the brand (the explicit
hint, or else the first two words of the reference title) shared exactly
when it is a substring of both normalized titles. -/
def claimC5Score (t1 t2 : String) (cur : Option ProductIn) : ℚ :=
  let n1 := normalizeL t1.data
  let n2 := normalizeL t2.data
  let brand := claimBrandOf cur n1
  specWeightedScore (containsSub n1 brand && containsSub n2 brand) n1 n2

/-- Claim C5 as amended: identical to the claimed formula except that the
brand counts as shared only when it is non-empty, and an explicit hint is
used only when the raw hint is non-empty (a hint normalizing to the empty
string therefore yields brand score 0.3). -/
def amendedC5Score (t1 t2 : String) (cur : Option ProductIn) : ℚ :=
  let n1 := normalizeL t1.data
  let n2 := normalizeL t2.data
  let brand := brandOf cur n1
  specWeightedScore (!brand.isEmpty && (containsSub n1 brand && containsSub n2 brand))
    n1 n2

/-! ### Demonstration values used by concrete theorems -/

/-- A concrete product record whose raw brand hint is non-empty but
normalizes to the empty string. -/
def hintedProduct : ProductIn :=
  { retailer := "Retail", title := "T", price := none, brand := some "!!",
    url := "u", imageUrl := none }

/-- A concrete product record used to instantiate concrete scenarios. -/
def demoProduct : ProductIn :=
  { retailer := "Amazon", title := "Anker PowerCore 10000", price := some 25,
    brand := some "Anker", url := "https://amazon.com/dp/B00X4WHP5E",
    imageUrl := none }

/-- The empty cache store. -/
def emptyCacheStore : CacheStore := fun _ => none

/-- A candidate item that the filter pipeline rejects (a .org non-commerce
domain). -/
def wikiItem : ApiItem :=
  { link := some "https://en.wikipedia.org/wiki/Bluetooth_speaker",
    displayLink := some "en.wikipedia.org",
    title := some "Bluetooth speaker - Wikipedia", pagemap := none }

/-- A candidate item that the filter pipeline accepts (a Target product
page). -/
def targetItem : ApiItem :=
  { link := some "https://www.target.com/p/anker-powercore-10000/-/A-12345678",
    displayLink := some "www.target.com",
    title := some "Anker PowerCore 10000 Portable Charger", pagemap := none }

/-- An API response whose only candidate is rejected by the filters. -/
def zeroCandidateData : ApiData := { items := some [wikiItem] }

/-- An API response with one rejected and one accepted candidate. -/
def demoApiData : ApiData := { items := some [wikiItem, targetItem] }

/-- A fully configured, enabled API configuration. -/
def okConfig : APIConfig := { apiKey := "key", searchEngineId := "cx", enabled := true }

/-! ### Support lemmas -/

theorem countRun_eq_zero (p : Char → Bool) (l : List Char)
    (h : ∀ c ∈ l, p c = false) : countRun p l = 0 := by
  cases l with
  | nil => rfl
  | cons c cs => simp [countRun, h c (by simp)]

theorem numCapture_eq_none (frac : List Char → Nat) (s : List Char)
    (h : ∀ c ∈ s, isDigitC c = false) : numCapture frac s = none := by
  simp [numCapture, countRun_eq_zero isDigitC s h]

theorem findUsd_eq_none (l : List Char) (h : ∀ c ∈ l, c ≠ '$') :
    findUsd l = none := by
  induction l with
  | nil => rfl
  | cons c rest ih =>
    have hc : ¬(c = '$') := h c (by simp)
    simp only [findUsd, usdMatchAt, if_neg hc]
    exact ih (fun x hx => h x (by simp [hx]))

theorem digitsToNat_nonneg_q (l : List Char) : (0 : ℚ) ≤ (digitsToNat l : ℚ) :=
  Nat.cast_nonneg _

theorem parseDecimal_nonneg (l : List Char) : 0 ≤ parseDecimal l := by
  unfold parseDecimal
  have h1 : (0 : ℚ) ≤ (digitsToNat (l.takeWhile (fun c => c ≠ '.')) : ℚ) :=
    Nat.cast_nonneg _
  have h2 : (0 : ℚ) ≤ (digitsToNat ((l.dropWhile (fun c => c ≠ '.')).drop 1) : ℚ) :=
    Nat.cast_nonneg _
  have h3 : (0 : ℚ) < (10 : ℚ) ^ ((l.dropWhile (fun c => c ≠ '.')).drop 1).length := by
    positivity
  exact add_nonneg h1 (div_nonneg h2 (le_of_lt h3))

theorem findPrice_eq_none (l : List Char) (h : ∀ c ∈ l, isDigitC c = false) :
    findPrice l = none := by
  induction l with
  | nil => rfl
  | cons c rest ih =>
    have hall : ∀ x ∈ c :: rest, isDigitC x = false := h
    have hafter : ∀ x ∈
        ((if (c = '£' || c = '€' || c = '¥' || c = '$') = true then rest
          else c :: rest).dropWhile isSpaceC), isDigitC x = false := by
      intro x hx
      have hsub : x ∈ (if (c = '£' || c = '€' || c = '¥' || c = '$') = true then rest
          else c :: rest) := (List.dropWhile_sublist _).subset hx
      split at hsub
      · exact hall x (List.mem_cons_of_mem _ hsub)
      · exact hall x hsub
    simp only [findPrice, priceMatchAt]
    rw [numCapture_eq_none _ _ hafter]
    exact ih (fun x hx => h x (by simp [hx]))

theorem containsSub_nil_needle (hay : List Char) : containsSub hay [] = true := by
  simp only [containsSub, List.any_eq_true]
  exact ⟨hay, by simp [List.mem_tails], by simp [List.isPrefixOf]⟩

theorem levenshteinDistance_nil_left (b : List Char) :
    levenshteinDistance [] b = b.length := by
  induction b with
  | nil => rfl
  | cons y ys ih =>
    simp only [levenshteinDistance] at ih ⊢
    rw [levenshtein_nil_cons, ih]
    simp [Levenshtein.defaultCost]
    omega

theorem levenshteinDistance_nil_right (a : List Char) :
    levenshteinDistance a [] = a.length := by
  induction a with
  | nil => rfl
  | cons x xs ih =>
    simp only [levenshteinDistance] at ih ⊢
    rw [levenshtein_cons_nil, ih]
    simp [Levenshtein.defaultCost]
    omega

theorem levenshteinDistance_comm (a b : List Char) :
    levenshteinDistance a b = levenshteinDistance b a := by
  induction a generalizing b with
  | nil => rw [levenshteinDistance_nil_left, levenshteinDistance_nil_right]
  | cons x xs ihx =>
    induction b with
    | nil => rw [levenshteinDistance_nil_left, levenshteinDistance_nil_right]
    | cons y ys ihy =>
      simp only [levenshteinDistance] at ihx ihy ⊢
      rw [levenshtein_cons_cons, levenshtein_cons_cons]
      rw [ihx (y :: ys), ihy, ihx ys]
      have hsub : Levenshtein.defaultCost.substitute x y =
          (Levenshtein.defaultCost.substitute y x : ℕ) := by
        simp only [Levenshtein.defaultCost]
        by_cases h : x = y <;> simp [h, eq_comm]
      rw [hsub]
      simp only [Levenshtein.defaultCost]
      exact min_left_comm _ _ _

theorem levenshteinDistance_le_max (a b : List Char) :
    levenshteinDistance a b ≤ max a.length b.length := by
  induction a generalizing b with
  | nil =>
    rw [levenshteinDistance_nil_left]
    omega
  | cons x xs ih =>
    cases b with
    | nil =>
      rw [levenshteinDistance_nil_right]
      omega
    | cons y ys =>
      have h3 : levenshteinDistance (x :: xs) (y :: ys) ≤
          Levenshtein.defaultCost.substitute x y + levenshteinDistance xs ys := by
        simp only [levenshteinDistance]
        rw [levenshtein_cons_cons]
        exact le_trans (min_le_right _ _) (min_le_right _ _)
      have hsub : (Levenshtein.defaultCost.substitute x y : ℕ) ≤ 1 := by
        simp only [Levenshtein.defaultCost]
        by_cases h : x = y <;> simp [h]
      have hrec := ih ys
      simp only [List.length_cons]
      omega

theorem jaccardSimilarity_comm (t1 t2 : List (List Char)) :
    jaccardSimilarity t1 t2 = jaccardSimilarity t2 t1 := by
  simp only [jaccardSimilarity]
  rw [Finset.inter_comm, Finset.union_comm]

theorem jaccardSimilarity_nonneg (t1 t2 : List (List Char)) :
    0 ≤ jaccardSimilarity t1 t2 := by
  simp only [jaccardSimilarity]
  split
  · positivity
  · exact le_refl 0

theorem jaccardSimilarity_le_one (t1 t2 : List (List Char)) :
    jaccardSimilarity t1 t2 ≤ 1 := by
  simp only [jaccardSimilarity]
  split
  · rename_i h
    rw [div_le_one (by exact_mod_cast h)]
    exact_mod_cast Finset.card_le_card Finset.inter_subset_union
  · norm_num

theorem modelsMatchB_comm (a b : List Char) : modelsMatchB a b = modelsMatchB b a := by
  rw [Bool.eq_iff_iff]
  simp only [modelsMatchB, Bool.and_eq_true, List.any_eq_true, Bool.or_eq_true,
    decide_eq_true_eq]
  constructor
  · rintro ⟨⟨h1, h2⟩, m1, hm1, m2, hm2, hp⟩
    exact ⟨⟨h2, h1⟩, m2, hm2, m1, hm1, by tauto⟩
  · rintro ⟨⟨h1, h2⟩, m1, hm1, m2, hm2, hp⟩
    exact ⟨⟨h2, h1⟩, m2, hm2, m1, hm1, by tauto⟩

theorem bothShareBrand_comm (n1 n2 brand : List Char) :
    bothShareBrand n1 n2 brand = bothShareBrand n2 n1 brand := by
  simp only [bothShareBrand]
  rw [Bool.and_comm]

theorem hybridScore_comm (n1 n2 brand : List Char) :
    hybridScore n1 n2 brand = hybridScore n2 n1 brand := by
  simp only [hybridScore]
  rw [bothShareBrand_comm, jaccardSimilarity_comm (extractTokens n1),
    levenshteinDistance_comm n1, Nat.max_comm n1.length]

/-! ### Claim C1 -/

set_option maxRecDepth 100000 in
/-- Claim C1, counterexample: on the concrete JBL pair with a null brand
hint the similarity score is strictly below 0.9, refuting the claimed
model-number short-circuit to at least 0.9. -/
theorem c1_counterexample :
    calculateTitleSimilarity "JBL Flip 6 Portable Speaker (Black)"
      "JBL FLIP6 BT Speaker - Black" none < 9/10 := by
  rw [show calculateTitleSimilarity "JBL Flip 6 Portable Speaker (Black)"
      "JBL FLIP6 BT Speaker - Black" none = 367/550 by
    with_unfolding_all rfl]
  norm_num

set_option maxRecDepth 100000 in
/-- Claim C1, amended: on the concrete JBL pair, title A yields no
extracted model codes at all (the space in "Flip 6" defeats every code
pattern), title B yields exactly the code FLIP6, so the model branch is
not taken and the hybrid branch returns exactly 367/550 (about 0.667),
below 0.9. -/
theorem c1_amended :
    extractModelNumbers "JBL Flip 6 Portable Speaker (Black)".data = [] ∧
    extractModelNumbers "JBL FLIP6 BT Speaker - Black".data = ["FLIP6".data] ∧
    calculateTitleSimilarity "JBL Flip 6 Portable Speaker (Black)"
      "JBL FLIP6 BT Speaker - Black" none = 367/550 := by
  refine ⟨by with_unfolding_all rfl, by with_unfolding_all rfl, ?_⟩
  with_unfolding_all rfl

theorem bothShareBrand_flat (n1 n2 brand : List Char) :
    bothShareBrand n1 n2 brand =
      (!brand.isEmpty && (containsSub n1 brand && containsSub n2 brand)) := by
  simp only [bothShareBrand]
  cases brand.isEmpty <;> cases containsSub n1 brand <;>
    cases containsSub n2 brand <;> rfl

theorem hybridScore_eq_spec (n1 n2 brand : List Char) (hn : n1 ≠ []) :
    hybridScore n1 n2 brand =
      specWeightedScore (bothShareBrand n1 n2 brand) n1 n2 ∧
    0 ≤ hybridScore n1 n2 brand ∧ hybridScore n1 n2 brand ≤ 1 := by
  have hJ0 := jaccardSimilarity_nonneg (extractTokens n1) (extractTokens n2)
  have hJ1 := jaccardSimilarity_le_one (extractTokens n1) (extractTokens n2)
  have hmaxpos : 0 < max n1.length n2.length :=
    lt_of_lt_of_le (List.length_pos.mpr hn) (le_max_left _ _)
  have hmq : (0 : ℚ) < ((max n1.length n2.length : ℕ) : ℚ) := by
    exact_mod_cast hmaxpos
  have hE0 : (0 : ℚ) ≤ 1 - (levenshteinDistance n1 n2 : ℚ) /
      ((max n1.length n2.length : ℕ) : ℚ) := by
    have hle := levenshteinDistance_le_max n1 n2
    have hdiv : (levenshteinDistance n1 n2 : ℚ) /
        ((max n1.length n2.length : ℕ) : ℚ) ≤ 1 := by
      rw [div_le_one hmq]
      exact_mod_cast hle
    linarith
  have hE1 : 1 - (levenshteinDistance n1 n2 : ℚ) /
      ((max n1.length n2.length : ℕ) : ℚ) ≤ 1 := by
    have hdiv : (0 : ℚ) ≤ (levenshteinDistance n1 n2 : ℚ) /
        ((max n1.length n2.length : ℕ) : ℚ) :=
      div_nonneg (Nat.cast_nonneg _) (Nat.cast_nonneg _)
    linarith
  simp only [hybridScore, specWeightedScore]
  rw [if_pos hmaxpos, if_pos (show (0 : ℚ) < 3/10 + 4/10 + 3/10 by norm_num)]
  generalize hJg : jaccardSimilarity (extractTokens n1) (extractTokens n2) = J at hJ0 hJ1 ⊢
  generalize hEg : (1 - (levenshteinDistance n1 n2 : ℚ) /
      ((max n1.length n2.length : ℕ) : ℚ)) = E at hE0 hE1 ⊢
  cases hsh : bothShareBrand n1 n2 brand with
  | true =>
    simp only [Bool.true_and, Bool.not_true, Bool.false_and, Bool.false_eq_true,
      if_false, if_true]
    by_cases hj : J > 1/2
    · simp only [hj, decide_True, if_true]
      have hb : ((8 : ℚ)/10 * (3/10) + J * (4/10) + E * (3/10)) /
          (3/10 + 4/10 + 3/10) = 3/10 * (8/10) + 4/10 * J + 3/10 * E := by ring
      rw [hb]
      have h0 : (0 : ℚ) ≤ min (95/100) (3/10 * (8/10) + 4/10 * J + 3/10 * E + 1/10) :=
        le_min (by norm_num) (by linarith)
      have h1 : min ((95 : ℚ)/100) (3/10 * (8/10) + 4/10 * J + 3/10 * E + 1/10) ≤ 1 :=
        le_trans (min_le_left _ _) (by norm_num)
      rw [max_eq_right h0, min_eq_right h1]
      exact ⟨rfl, h0, h1⟩
    · simp only [hj, decide_False, Bool.false_eq_true, if_false]
      have hb : ((8 : ℚ)/10 * (3/10) + J * (4/10) + E * (3/10)) /
          (3/10 + 4/10 + 3/10) = 3/10 * (8/10) + 4/10 * J + 3/10 * E := by ring
      rw [hb]
      have h0 : (0 : ℚ) ≤ 3/10 * (8/10) + 4/10 * J + 3/10 * E := by linarith
      have h1 : (3 : ℚ)/10 * (8/10) + 4/10 * J + 3/10 * E ≤ 1 := by linarith
      rw [max_eq_right h0, min_eq_right h1]
      exact ⟨rfl, h0, h1⟩
  | false =>
    simp only [Bool.false_and, Bool.not_false, Bool.true_and, Bool.false_eq_true,
      if_false]
    by_cases hj : J > 6/10
    · simp only [hj, decide_True, if_true]
      have hb : ((3 : ℚ)/10 * (3/10) + J * (4/10) + E * (3/10)) /
          (3/10 + 4/10 + 3/10) = 3/10 * (3/10) + 4/10 * J + 3/10 * E := by ring
      rw [hb]
      have h0 : (0 : ℚ) ≤ max 0 (3/10 * (3/10) + 4/10 * J + 3/10 * E - 1/10) :=
        le_max_left _ _
      have h1 : max (0 : ℚ) (3/10 * (3/10) + 4/10 * J + 3/10 * E - 1/10) ≤ 1 :=
        max_le (by norm_num) (by linarith)
      rw [max_eq_right h0, min_eq_right h1]
      exact ⟨rfl, h0, h1⟩
    · simp only [hj, decide_False, Bool.false_eq_true, if_false]
      have hb : ((3 : ℚ)/10 * (3/10) + J * (4/10) + E * (3/10)) /
          (3/10 + 4/10 + 3/10) = 3/10 * (3/10) + 4/10 * J + 3/10 * E := by ring
      rw [hb]
      have h0 : (0 : ℚ) ≤ 3/10 * (3/10) + 4/10 * J + 3/10 * E := by linarith
      have h1 : (3 : ℚ)/10 * (3/10) + 4/10 * J + 3/10 * E ≤ 1 := by linarith
      rw [max_eq_right h0, min_eq_right h1]
      exact ⟨rfl, h0, h1⟩

/-! ### Claim C5 -/

set_option maxRecDepth 100000 in
/-- Claim C5, counterexample: at the titles "alpha beta" and "beta alpha"
with the explicit brand hint "!!" (non-empty, but normalizing to the empty
string) the claim's hypotheses hold, yet the source scores 0.45 while the
claimed formula gives 0.8: the source treats the empty normalized brand as
falsy (brand score 0.3, then the no-brand penalty), whereas the claimed
formula makes the empty brand a substring of both titles (brand score 0.8,
then the shared-brand boost). -/
theorem c5_counterexample :
    normalizeL "alpha beta".data ≠ normalizeL "beta alpha".data ∧
    containsSub (normalizeL "alpha beta".data) (normalizeL "beta alpha".data) = false ∧
    containsSub (normalizeL "beta alpha".data) (normalizeL "alpha beta".data) = false ∧
    modelsMatchB "alpha beta".data "beta alpha".data = false ∧
    calculateTitleSimilarity "alpha beta" "beta alpha" (some hintedProduct) ≠
      claimC5Score "alpha beta" "beta alpha" (some hintedProduct) := by
  refine ⟨by decide, by decide, by decide, by decide, ?_⟩
  rw [show calculateTitleSimilarity "alpha beta" "beta alpha" (some hintedProduct) =
        9/20 by with_unfolding_all rfl,
      show claimC5Score "alpha beta" "beta alpha" (some hintedProduct) = 8/10 by
        with_unfolding_all rfl]
  norm_num

/-- Claim C5, amended: under the claim's hypotheses (non-empty titles, not
equal after normalization, no containment, no matching model codes) the
similarity equals the weighted formula with the brand counted as shared
only when the brand string is non-empty — where an explicit hint is used
only if the raw hint is non-empty — and the result always lies in [0, 1]. -/
theorem c5_amended (t1 t2 : String) (cur : Option ProductIn)
    (h1 : t1 ≠ "") (h2 : t2 ≠ "")
    (hne : normalizeL t1.data ≠ normalizeL t2.data)
    (hc1 : containsSub (normalizeL t1.data) (normalizeL t2.data) = false)
    (hc2 : containsSub (normalizeL t2.data) (normalizeL t1.data) = false)
    (hm : modelsMatchB t1.data t2.data = false) :
    calculateTitleSimilarity t1 t2 cur = amendedC5Score t1 t2 cur ∧
    0 ≤ calculateTitleSimilarity t1 t2 cur ∧
    calculateTitleSimilarity t1 t2 cur ≤ 1 := by
  have hn1 : normalizeL t1.data ≠ [] := by
    intro hnil
    rw [hnil, containsSub_nil_needle] at hc2
    exact absurd hc2 (by simp)
  have hsim : calculateTitleSimilarity t1 t2 cur =
      hybridScore (normalizeL t1.data) (normalizeL t2.data)
        (brandOf cur (normalizeL t1.data)) := by
    simp only [calculateTitleSimilarity]
    rw [if_neg (by simp [h1, h2]), if_neg hne, if_neg (by simp [hc1, hc2]),
        if_neg (by simp [hm])]
  have hcore := hybridScore_eq_spec (normalizeL t1.data) (normalizeL t2.data)
    (brandOf cur (normalizeL t1.data)) hn1
  have hamend : amendedC5Score t1 t2 cur =
      specWeightedScore
        (bothShareBrand (normalizeL t1.data) (normalizeL t2.data)
          (brandOf cur (normalizeL t1.data)))
        (normalizeL t1.data) (normalizeL t2.data) := by
    simp only [amendedC5Score]
    rw [bothShareBrand_flat]
  rw [hsim, hamend]
  exact hcore

set_option maxRecDepth 100000 in
/-- Claim C5, witness: the amended theorem applied at the concrete pair
"red fox one" and "big red fox two" with a null hint, whose hypotheses all
hold, giving the concrete weighted score. -/
theorem c5_amended_witness :
    calculateTitleSimilarity "red fox one" "big red fox two" none =
      amendedC5Score "red fox one" "big red fox two" none ∧
    0 ≤ calculateTitleSimilarity "red fox one" "big red fox two" none ∧
    calculateTitleSimilarity "red fox one" "big red fox two" none ≤ 1 :=
  c5_amended "red fox one" "big red fox two" none (by decide) (by decide)
    (by decide) (by decide) (by decide) (by decide)

/-! ### Claim C6 -/

/-- Claim C6: for non-empty titles the similarity is exactly 1.0 on equal
normalized titles and exactly 0.95 on strict containment of one normalized
title in the other; in particular the concrete Sony pair scores at least
0.95. -/
theorem c6_exact_and_containment :
    (∀ (t1 t2 : String) (cur : Option ProductIn), t1 ≠ "" → t2 ≠ "" →
      (normalizeL t1.data = normalizeL t2.data →
        calculateTitleSimilarity t1 t2 cur = 1) ∧
      (normalizeL t1.data ≠ normalizeL t2.data →
        (containsSub (normalizeL t1.data) (normalizeL t2.data) = true ∨
         containsSub (normalizeL t2.data) (normalizeL t1.data) = true) →
        calculateTitleSimilarity t1 t2 cur = 95/100)) ∧
    calculateTitleSimilarity "Sony WH-1000XM5"
      "Sony WH-1000XM5 Wireless Noise Canceling Headphones" none ≥ 95/100 := by
  constructor
  · intro t1 t2 cur h1 h2
    constructor
    · intro heq
      simp [calculateTitleSimilarity, h1, h2, heq]
    · intro hne hcon
      simp only [calculateTitleSimilarity]
      rw [if_neg (by simp [h1, h2]), if_neg hne]
      rcases hcon with h | h <;> rw [if_pos (by simp [h])]
  · rw [show calculateTitleSimilarity "Sony WH-1000XM5"
        "Sony WH-1000XM5 Wireless Noise Canceling Headphones" none = 95/100 by
      with_unfolding_all rfl]

/-- Claim C6, witness: the containment part applied at the concrete Sony
pair gives exactly 0.95. -/
theorem c6_exact_and_containment_witness :
    calculateTitleSimilarity "Sony WH-1000XM5"
      "Sony WH-1000XM5 Wireless Noise Canceling Headphones" none = 95/100 :=
  (c6_exact_and_containment.1 "Sony WH-1000XM5"
      "Sony WH-1000XM5 Wireless Noise Canceling Headphones" none
      (by decide) (by decide)).2
    (by decide)
    (Or.inr (by decide))

/-! ### Claim C3 -/

set_option maxRecDepth 100000 in
/-- Claim C3, counterexample: with a null brand hint the matcher is not
symmetric: swapping the titles "red fox one" and "big red fox two" changes
the score from 0.56 to 0.41, because the heuristic brand is the first two
words of the first argument. -/
theorem c3_counterexample :
    calculateTitleSimilarity "red fox one" "big red fox two" none ≠
      calculateTitleSimilarity "big red fox two" "red fox one" none := by
  rw [show calculateTitleSimilarity "red fox one" "big red fox two" none = 14/25 by
        with_unfolding_all rfl,
      show calculateTitleSimilarity "big red fox two" "red fox one" none = 41/100 by
        with_unfolding_all rfl]
  norm_num

/-- Claim C3, amended: with a null brand hint the similarity is symmetric
whenever the two normalized titles begin with the same first two words, so
that the heuristic brand coincides for both argument orders (the exact,
containment, model-code, Jaccard and edit-distance signals are all
symmetric; only the heuristic brand depends on the argument order). -/
theorem c3_amended (a b : String)
    (h : firstTwoWords (normalizeL a.data) = firstTwoWords (normalizeL b.data)) :
    calculateTitleSimilarity a b none = calculateTitleSimilarity b a none := by
  by_cases h0 : a = ""
  · simp [calculateTitleSimilarity, h0]
  · by_cases h0b : b = ""
    · simp [calculateTitleSimilarity, h0b]
    · simp only [calculateTitleSimilarity, h0, h0b, decide_False, Bool.or_false,
        Bool.false_or, decide_eq_true_eq, if_false]
      by_cases heq : normalizeL a.data = normalizeL b.data
      · simp [heq]
      · have heq2 : ¬normalizeL b.data = normalizeL a.data := Ne.symm heq
        rw [if_neg heq, if_neg heq2]
        by_cases hcon : (containsSub (normalizeL a.data) (normalizeL b.data) ||
            containsSub (normalizeL b.data) (normalizeL a.data)) = true
        · have hcon2 : (containsSub (normalizeL b.data) (normalizeL a.data) ||
              containsSub (normalizeL a.data) (normalizeL b.data)) = true := by
            rw [Bool.or_comm]; exact hcon
          rw [if_pos hcon, if_pos hcon2]
        · have hcon2 : ¬(containsSub (normalizeL b.data) (normalizeL a.data) ||
              containsSub (normalizeL a.data) (normalizeL b.data)) = true := by
            rw [Bool.or_comm]; exact hcon
          rw [if_neg hcon, if_neg hcon2]
          by_cases hmod : modelsMatchB a.data b.data = true
          · have hmod2 : modelsMatchB b.data a.data = true := by
              rw [modelsMatchB_comm]; exact hmod
            rw [if_pos hmod, if_pos hmod2]
          · have hmod2 : ¬modelsMatchB b.data a.data = true := by
              rw [modelsMatchB_comm]; exact hmod
            rw [if_neg hmod, if_neg hmod2]
            show hybridScore _ _ (brandOf none _) = hybridScore _ _ (brandOf none _)
            rw [show brandOf none (normalizeL a.data) =
                  firstTwoWords (normalizeL a.data) from rfl,
                show brandOf none (normalizeL b.data) =
                  firstTwoWords (normalizeL b.data) from rfl, h,
                hybridScore_comm]

/-- Claim C3, witness: symmetry applied at two titles sharing the first
two words "apple watch". -/
theorem c3_amended_witness :
    calculateTitleSimilarity "apple watch series" "apple watch ultra" none =
      calculateTitleSimilarity "apple watch ultra" "apple watch series" none :=
  c3_amended "apple watch series" "apple watch ultra" (by decide)

/-! ### Claim C7 -/

/-- Claim C7: the strict USD parser rejects pound-marked text, parses
"$45.00" to 45, returns none on every input without a dollar sign, and
only ever returns strictly positive values. -/
theorem c7_strict_usd :
    parsePriceTextUSDOnly "£45.00" = none ∧
    parsePriceTextUSDOnly "$45.00" = some 45 ∧
    (∀ s : String, (∀ c ∈ s.data, c ≠ '$') → parsePriceTextUSDOnly s = none) ∧
    (∀ (s : String) (v : ℚ), parsePriceTextUSDOnly s = some v → 0 < v) := by
  refine ⟨by with_unfolding_all rfl, by with_unfolding_all rfl, ?_, ?_⟩
  · intro s h
    simp [parsePriceTextUSDOnly, findUsd_eq_none s.data h]
  · intro s v h
    unfold parsePriceTextUSDOnly at h
    cases hf : findUsd s.data with
    | none => rw [hf] at h; exact absurd h (by simp)
    | some cap =>
      rw [hf] at h
      simp only at h
      split at h
      · exact absurd h (by simp)
      · rename_i hle
        obtain rfl : v = parseDecimal (cap.filter (fun c => !isSepC c)) :=
          (Option.some_injective _ h.symm)
        exact lt_of_not_le hle

/-- Claim C7, witness: the theorem applied at pound-marked text, text with
no dollar sign, and the concrete positive parse of "$45.00". -/
theorem c7_strict_usd_witness :
    parsePriceTextUSDOnly "£45.00" = none ∧
    parsePriceTextUSDOnly "100 pesos" = none ∧ (0 : ℚ) < 45 :=
  ⟨c7_strict_usd.1,
   c7_strict_usd.2.2.1 "100 pesos" (by decide),
   c7_strict_usd.2.2.2 "$45.00" 45 (by with_unfolding_all rfl)⟩

/-! ### Claim C8 -/

/-- Claim C8, counterexample: the lenient parser maps "$0.00" to the
number 0, not to none, refuting the claimed non-positive rejection. -/
theorem c8_counterexample :
    parsePriceText "$0.00" = some 0 ∧ parsePriceText "$0.00" ≠ none := by
  constructor
  · with_unfolding_all rfl
  · rw [show parsePriceText "$0.00" = some 0 by with_unfolding_all rfl]
    simp

/-- Claim C8, amended: the lenient parser returns none (never throwing,
never NaN) exactly when the input has no digit; a located value is always
non-negative but may be zero, and zero is returned as 0 rather than none. -/
theorem c8_amended :
    (∀ s : String, (∀ c ∈ s.data, isDigitC c = false) → parsePriceText s = none) ∧
    (∀ (s : String) (v : ℚ), parsePriceText s = some v → 0 ≤ v) := by
  constructor
  · intro s h
    have hmap : ∀ c ∈ s.data.map (fun c => if c = Char.ofNat 160 then ' ' else c),
        isDigitC c = false := by
      intro c hc
      obtain ⟨a, ha, rfl⟩ := List.mem_map.mp hc
      by_cases hnb : a = Char.ofNat 160
      · simp [hnb]; rfl
      · simpa [hnb] using h a ha
    simp [parsePriceText, findPrice_eq_none _ hmap]
  · intro s v h
    unfold parsePriceText at h
    cases hf : findPrice (s.data.map (fun c => if c = Char.ofNat 160 then ' ' else c)) with
    | none => rw [hf] at h; exact absurd h (by simp)
    | some cap =>
      rw [hf] at h
      simp only [Option.some.injEq] at h
      rw [← h]
      exact parseDecimal_nonneg _

/-- Claim C8, witness: the theorem applied at digit-free text and at the
concrete zero parse of "$0.00". -/
theorem c8_amended_witness :
    parsePriceText "no price here" = none ∧ (0 : ℚ) ≤ 0 :=
  ⟨c8_amended.1 "no price here" (by decide),
   c8_amended.2 "$0.00" 0 (by with_unfolding_all rfl)⟩

/-! ### Claim C9 -/

/-- Claim C9: writing a cache entry and reading the same key at a time not
after its expiry (24 hours after the write) returns exactly the stored
result list; reading strictly after the expiry returns absent and removes
the entry. -/
theorem c9_cache_roundtrip (store : CacheStore) (cacheKey : String)
    (results : List ResultEntry) (productInfo : ProductIn) (tw tr : ℕ) :
    (tr ≤ tw + 86400000 →
      (loadCachedResults (saveCachedResults store cacheKey results productInfo tw)
        cacheKey tr).1 =
        some { results := results, productInfo := productInfo, timestamp := tw,
               isCached := true }) ∧
    (tw + 86400000 < tr →
      (loadCachedResults (saveCachedResults store cacheKey results productInfo tw)
        cacheKey tr).1 = none ∧
      (loadCachedResults (saveCachedResults store cacheKey results productInfo tw)
        cacheKey tr).2 cacheKey = none) := by
  constructor
  · intro h
    simp only [loadCachedResults, saveCachedResults, Function.update_same]
    rw [if_neg]
    intro hcond
    omega
  · intro h
    have hcond : tw + 24 * 60 * 60 * 1000 ≠ 0 ∧ tw + 24 * 60 * 60 * 1000 < tr := by
      omega
    constructor
    · simp only [loadCachedResults, saveCachedResults, Function.update_same]
      rw [if_pos hcond]
    · simp only [loadCachedResults, saveCachedResults, Function.update_same]
      rw [if_pos hcond]
      simp [Function.update_same]

/-- Claim C9, witness: the round trip at concrete times 100 (fresh) and
86400001 (expired) for a write at time 0. -/
theorem c9_cache_roundtrip_witness :
    (loadCachedResults (saveCachedResults emptyCacheStore "key" [] demoProduct 0)
      "key" 100).1 =
      some { results := [], productInfo := demoProduct, timestamp := 0,
             isCached := true } ∧
    (loadCachedResults (saveCachedResults emptyCacheStore "key" [] demoProduct 0)
      "key" 86400001).1 = none :=
  ⟨(c9_cache_roundtrip emptyCacheStore "key" [] demoProduct 0 100).1 (by norm_num),
   ((c9_cache_roundtrip emptyCacheStore "key" [] demoProduct 0 86400001).2
     (by norm_num)).1⟩

/-! ### Claims C4, C10 and C2: the parse pipeline -/

theorem itemAccept_some (p : ProductIn) (added : List String) (item : ApiItem)
    (e : ResultEntry) (h : itemAccept p added item = some e) :
    toLowerStr e.retailer ∉ added ∧
    toLowerStr e.retailer ≠ toLowerStr p.retailer ∧
    e.isCurrentPage = false := by
  simp only [itemAccept] at h
  split at h
  · split at h
    · exact absurd h (by simp)
    · split at h
      · exact absurd h (by simp)
      · rename_i hmem hcur
        injection h with h2
        subst h2
        exact ⟨by simpa using hmem, by simpa using hcur, rfl⟩
  · exact absurd h (by simp)

theorem processItems_inv (p : ProductIn) (items : List ApiItem) :
    ∀ added : List String,
      (∀ e ∈ processItems p items added, toLowerStr e.retailer ∉ added ∧
        toLowerStr e.retailer ≠ toLowerStr p.retailer ∧ e.isCurrentPage = false) ∧
      List.Pairwise (fun x y => toLowerStr x.retailer ≠ toLowerStr y.retailer)
        (processItems p items added) := by
  induction items with
  | nil =>
    intro added
    exact ⟨by simp [processItems], by simp [processItems]⟩
  | cons item rest ih =>
    intro added
    cases hacc : itemAccept p added item with
    | none =>
      simp only [processItems, hacc]
      exact ih added
    | some e =>
      simp only [processItems, hacc]
      obtain ⟨hnotin, hnotcur, hnotpage⟩ := itemAccept_some p added item e hacc
      have hrest := ih (added ++ [toLowerStr e.retailer])
      constructor
      · intro x hx
        rcases List.mem_cons.mp hx with rfl | hx2
        · exact ⟨hnotin, hnotcur, hnotpage⟩
        · obtain ⟨hni, hnc, hnp⟩ := hrest.1 x hx2
          exact ⟨fun hmem => hni (List.mem_append_left _ hmem), hnc, hnp⟩
      · refine List.Pairwise.cons ?_ hrest.2
        intro y hy heq
        apply (hrest.1 y hy).1
        rw [← heq]
        exact List.mem_append_right _ (by simp)

/-- Claim C4: for every API response and current product, the non-current
rows of the parsed result list carry pairwise distinct lowercased retailer
names, and none of them carries the current product's retailer
(case-insensitively). -/
theorem c4_dedup_invariant (apiData : ApiData) (p : ProductIn) :
    List.Pairwise (fun x y => toLowerStr x.retailer ≠ toLowerStr y.retailer)
      ((parseShoppingResults apiData p).filter (fun r => !r.isCurrentPage)) ∧
    ∀ r ∈ (parseShoppingResults apiData p).filter (fun r => !r.isCurrentPage),
      toLowerStr r.retailer ≠ toLowerStr p.retailer := by
  cases hitems : apiData.items with
  | none => simp [parseShoppingResults, hitems, currentPageEntry]
  | some items =>
    have hinv := processItems_inv p items [toLowerStr p.retailer]
    have hfilter : (processItems p items [toLowerStr p.retailer]).filter
        (fun r => !r.isCurrentPage) = processItems p items [toLowerStr p.retailer] :=
      List.filter_eq_self.mpr (fun a ha => by rw [(hinv.1 a ha).2.2]; rfl)
    simp only [parseShoppingResults, hitems]
    rw [List.filter_cons_of_neg (by simp [currentPageEntry]), hfilter]
    exact ⟨hinv.2, fun r hr => (hinv.1 r hr).2.1⟩

/-- Claim C4, witness: the invariant at a concrete response holding one
rejected and one accepted candidate. -/
theorem c4_dedup_invariant_witness :
    List.Pairwise (fun x y => toLowerStr x.retailer ≠ toLowerStr y.retailer)
      ((parseShoppingResults demoApiData demoProduct).filter
        (fun r => !r.isCurrentPage)) ∧
    ∀ r ∈ (parseShoppingResults demoApiData demoProduct).filter
        (fun r => !r.isCurrentPage),
      toLowerStr r.retailer ≠ toLowerStr demoProduct.retailer :=
  c4_dedup_invariant demoApiData demoProduct

/-- Claim C10: for every API response and current product the parsed list
is non-empty with the current page entry (tagged isCurrentPage) first, so
the orchestrator's empty-result check never fires after a successful
parse: with a cache miss and a good configuration the live path always
presents the parsed list, never the fallback. -/
theorem c10_current_page_first (apiData : ApiData) (p : ProductIn) :
    (parseShoppingResults apiData p).head? = some (currentPageEntry p) ∧
    (currentPageEntry p).isCurrentPage = true ∧
    (parseShoppingResults apiData p).length ≠ 0 ∧
    (∀ config : APIConfig, config.enabled = true → config.apiKey ≠ "" →
      config.searchEngineId ≠ "" →
      fetchPriceComparisonsModel none config (some apiData) p =
        .live (parseShoppingResults apiData p)) := by
  refine ⟨rfl, rfl, by simp [parseShoppingResults], ?_⟩
  intro config hen hkey hid
  simp only [fetchPriceComparisonsModel]
  rw [if_neg (by simp [hen, hkey, hid]), if_neg (by simp [parseShoppingResults])]

/-- Claim C10, witness: the live path at a concrete response and a good
configuration. -/
theorem c10_current_page_first_witness :
    fetchPriceComparisonsModel none okConfig (some demoApiData) demoProduct =
      .live (parseShoppingResults demoApiData demoProduct) :=
  (c10_current_page_first demoApiData demoProduct).2.2.2 okConfig rfl
    (by decide) (by decide)

/-- Claim C2: at a configured, cache-missing invocation whose API call
succeeds but whose only candidate is rejected by the filters, the source
displays the live single-row list holding just the current page entry; the
zero-result fallback branch does not fire, contradicting the documented
fall-back-on-zero-results behaviour. -/
theorem c2_zero_result_bug :
    fetchPriceComparisonsModel none okConfig (some zeroCandidateData) demoProduct =
      .live [currentPageEntry demoProduct] ∧
    (parseShoppingResults zeroCandidateData demoProduct).filter
      (fun r => !r.isCurrentPage) = [] ∧
    FetchOutcome.live [currentPageEntry demoProduct] ≠
      FetchOutcome.fallback (generateFallbackResults demoProduct) := by
  refine ⟨?_, ?_, fun h => FetchOutcome.noConfusion h⟩
  · with_unfolding_all rfl
  · with_unfolding_all rfl

end SuperShopper
